import Mathlib

/-!
Shallow embedding of the serial-image-capture firmware sketches
(`nano33_tinyml_kit_image_serial.ino`, `esp32_cam_image_serial.ino`,
`esp32_cam_image_capture_02.ino`).

Byte buffers are `List Nat` (each entry a byte value), `unsigned int`
arithmetic is `Nat`, and the imperative write loops become `List.foldl`
over `List.range` performing `List.set`, mirroring the C loop structure.
-/

/-- Return codes for image manipulation (`EimlRet` in the sketch). -/
inductive EimlRet where
  | EIML_OK
  | EIML_ERROR
deriving DecidableEq, Repr

/-- Transmission header for a raw image (`EimlHeader` struct):
`format` is a `uint8_t`, `width`/`height` are `uint32_t`. -/
structure EimlHeader where
  format : Nat
  width : Nat
  height : Nat
deriving DecidableEq, Repr

/-- `EIML_SOF`: the 3 start-of-frame marker bytes. -/
def EIML_SOF : List Nat := [0xFF, 0xA0, 0xFF]

/-- `EIML_HEADER_SIZE`. -/
def EIML_HEADER_SIZE : Nat := 12

/-- Input index read by `eiml_crop_center` for output pixel `(x, y)`,
byte `b`:  `in_y_offset + in_x_offset + b` in the source. -/
def cropInIdx (in_width in_height out_width out_height bytes_per_pixel y x b : Nat) : Nat :=
  bytes_per_pixel * in_width * ((in_height - out_height) / 2 + y) +
    bytes_per_pixel * ((in_width - out_width) / 2 + x) + b

/-- Output index written by `eiml_crop_center` for output pixel `(x, y)`,
byte `b`: `out_y_offset + out_x_offset + b` in the source. -/
def cropOutIdx (out_width bytes_per_pixel y x b : Nat) : Nat :=
  bytes_per_pixel * out_width * y + bytes_per_pixel * x + b

/-- `eiml_crop_center`: crop an image, store in another buffer.  The C
function receives the output buffer from the caller and writes into it;
here the initial buffer `out_pixels` is passed in and the final buffer is
returned together with the return code.  On the error branch the function
returns before any write, so the buffer is returned unchanged. -/
def eiml_crop_center (in_pixels : List Nat) (in_width in_height : Nat)
    (out_pixels : List Nat) (out_width out_height bytes_per_pixel : Nat) :
    EimlRet × List Nat :=
  if in_width < out_width ∨ in_height < out_height then
    (EimlRet.EIML_ERROR, out_pixels)
  else
    (EimlRet.EIML_OK,
      (List.range out_height).foldl (fun outy y =>
        (List.range out_width).foldl (fun outx x =>
          (List.range bytes_per_pixel).foldl (fun outb b =>
            outb.set (cropOutIdx out_width bytes_per_pixel y x b)
              (in_pixels.getD
                (cropInIdx in_width in_height out_width out_height bytes_per_pixel y x b) 0))
            outx) outy) out_pixels)

/-- The red byte computed by `eiml_rgb565_to_rgb888` from the first (high)
byte of a pixel: `in_pixels[2*i] & 0xF8`, stored into an `unsigned char`. -/
def rgb565_r (hb : Nat) : Nat := (hb &&& 0xF8) % 256

/-- The green byte computed by `eiml_rgb565_to_rgb888`:
`(in_pixels[2*i] << 5) | ((in_pixels[2*i+1] & 0xE0) >> 3)`, truncated to an
`unsigned char`. -/
def rgb565_g (hb lb : Nat) : Nat := ((hb <<< 5) ||| ((lb &&& 0xE0) >>> 3)) % 256

/-- The blue byte computed by `eiml_rgb565_to_rgb888`:
`in_pixels[2*i+1] << 3`, truncated to an `unsigned char`. -/
def rgb565_b (lb : Nat) : Nat := (lb <<< 3) % 256

/-- `eiml_rgb565_to_rgb888`: convert RGB565 to RGB888.  The loop writes,
for each pixel `i`, output bytes `3*i`, `3*i+1`, `3*i+2`. -/
def eiml_rgb565_to_rgb888 (in_pixels out_pixels : List Nat) (num_pixels : Nat) :
    EimlRet × List Nat :=
  (EimlRet.EIML_OK,
    (List.range num_pixels).foldl (fun o i =>
      ((o.set (3 * i) (rgb565_r (in_pixels.getD (2 * i) 0))).set (3 * i + 1)
          (rgb565_g (in_pixels.getD (2 * i) 0) (in_pixels.getD (2 * i + 1) 0))).set
        (3 * i + 2) (rgb565_b (in_pixels.getD (2 * i + 1) 0)))
      out_pixels)

/-- `eiml_generate_header`: generate the 12-byte transmission header into
the caller's buffer: 3 SOF bytes, 1 format byte, 4 little-endian width
bytes, 4 little-endian height bytes. -/
def eiml_generate_header (header : EimlHeader) (out_header : List Nat) :
    EimlRet × List Nat :=
  let o1 := (List.range 3).foldl (fun o i => o.set i (EIML_SOF.getD i 0)) out_header
  let o2 := o1.set 3 header.format
  let o3 := (List.range 4).foldl (fun o i => o.set (3 + 1 + i) ((header.width >>> (i * 8)) &&& 0xFF)) o2
  let o4 := (List.range 4).foldl (fun o i => o.set (3 + 5 + i) ((header.height >>> (i * 8)) &&& 0xFF)) o3
  (EimlRet.EIML_OK, o4)

/-- Characterization of a `foldl` over `List.range n` where iteration `j`
only touches buffer entries in the window `[W j, W (j+1))`, preserves the
length, and writes the value `g j k` at position `k` of its window:
the result has the original length, agrees with the original buffer
outside `[W 0, W n)`, and holds `g j k` at each in-bounds `k` in window
`j < n`. -/
theorem foldl_range_window
    (step : List Nat → Nat → List Nat) (W : Nat → Nat) (g : Nat → Nat → Nat) (n : Nat)
    (hW : ∀ a b, a ≤ b → W a ≤ W b)
    (hlen : ∀ o j, (step o j).length = o.length)
    (hout : ∀ o j k d, k < W j ∨ W (j + 1) ≤ k → (step o j).getD k d = o.getD k d)
    (hin : ∀ o j k d, W j ≤ k → k < W (j + 1) → k < o.length → (step o j).getD k d = g j k)
    (out : List Nat) :
    ((List.range n).foldl step out).length = out.length ∧
    (∀ k d, k < W 0 ∨ W n ≤ k → ((List.range n).foldl step out).getD k d = out.getD k d) ∧
    (∀ j k d, j < n → W j ≤ k → k < W (j + 1) → k < out.length →
      ((List.range n).foldl step out).getD k d = g j k) := by
  induction n with
  | zero =>
    exact ⟨rfl, fun k d _ => rfl, fun j k d hj _ _ _ => absurd hj (Nat.not_lt_zero j)⟩
  | succ n ih =>
    have hrange : List.range (n + 1) = List.range n ++ [n] := by
      rw [Nat.add_one]; exact List.range_succ n
    rw [hrange, List.foldl_append]
    simp only [List.foldl_cons, List.foldl_nil]
    refine ⟨by rw [hlen, ih.1], ?_, ?_⟩
    · intro k d hk
      have h1 : (step ((List.range n).foldl step out) n).getD k d =
          ((List.range n).foldl step out).getD k d := by
        apply hout
        rcases hk with h | h
        · exact Or.inl (lt_of_lt_of_le h (hW 0 n (Nat.zero_le n)))
        · exact Or.inr h
      rw [h1]
      apply ih.2.1
      rcases hk with h | h
      · exact Or.inl h
      · exact Or.inr (le_trans (hW n (n + 1) (Nat.le_succ n)) h)
    · intro j k d hj hk1 hk2 hk3
      rcases Nat.lt_succ_iff_lt_or_eq.mp hj with hj' | rfl
      · have hkW : k < W n := lt_of_lt_of_le hk2 (hW (j + 1) n hj')
        rw [hout _ n k d (Or.inl hkW)]
        exact ih.2.2 j k d hj' hk1 hk2 hk3
      · apply hin
        · exact hk1
        · exact hk2
        · rw [ih.1]; exact hk3

theorem getD_set_ne (l : List Nat) (i k v d : Nat) (h : i ≠ k) :
    (l.set i v).getD k d = l.getD k d := by
  simp [List.getD_eq_getElem?_getD, List.getElem?_set_ne h]

theorem getD_set_self (l : List Nat) (i v d : Nat) (h : i < l.length) :
    (l.set i v).getD i d = v := by
  simp [List.getD_eq_getElem?_getD, List.getElem?_set_self, h]

/-- Success-path characterization of `eiml_crop_center`: when the crop
fits, it returns `EIML_OK`, preserves the output buffer's length, and sets
the byte at `cropOutIdx … y x b` to the input byte at `cropInIdx … y x b`
for every output pixel `(x, y)` and byte `b` of the pixel. -/
theorem eiml_crop_center_spec (in_pixels : List Nat) (in_width in_height : Nat)
    (out_pixels : List Nat) (out_width out_height bytes_per_pixel : Nat)
    (hw : out_width ≤ in_width) (hh : out_height ≤ in_height) :
    (eiml_crop_center in_pixels in_width in_height out_pixels out_width out_height
        bytes_per_pixel).1 = EimlRet.EIML_OK ∧
    (eiml_crop_center in_pixels in_width in_height out_pixels out_width out_height
        bytes_per_pixel).2.length = out_pixels.length ∧
    (∀ y x b d, y < out_height → x < out_width → b < bytes_per_pixel →
      cropOutIdx out_width bytes_per_pixel y x b < out_pixels.length →
      (eiml_crop_center in_pixels in_width in_height out_pixels out_width out_height
          bytes_per_pixel).2.getD (cropOutIdx out_width bytes_per_pixel y x b) d =
        in_pixels.getD
          (cropInIdx in_width in_height out_width out_height bytes_per_pixel y x b) 0) := by
  have hcond : ¬ (in_width < out_width ∨ in_height < out_height) := by omega
  have inner : ∀ y x (o : List Nat),
      ((List.range bytes_per_pixel).foldl (fun outb b =>
          outb.set (cropOutIdx out_width bytes_per_pixel y x b)
            (in_pixels.getD
              (cropInIdx in_width in_height out_width out_height bytes_per_pixel y x b) 0))
        o).length = o.length ∧
      (∀ k d, k < bytes_per_pixel * out_width * y + bytes_per_pixel * x ∨
          bytes_per_pixel * out_width * y + bytes_per_pixel * x + bytes_per_pixel ≤ k →
        ((List.range bytes_per_pixel).foldl (fun outb b =>
            outb.set (cropOutIdx out_width bytes_per_pixel y x b)
              (in_pixels.getD
                (cropInIdx in_width in_height out_width out_height bytes_per_pixel y x b) 0))
          o).getD k d = o.getD k d) ∧
      (∀ b k d, b < bytes_per_pixel →
        bytes_per_pixel * out_width * y + bytes_per_pixel * x + b ≤ k →
        k < bytes_per_pixel * out_width * y + bytes_per_pixel * x + b + 1 →
        k < o.length →
        ((List.range bytes_per_pixel).foldl (fun outb b =>
            outb.set (cropOutIdx out_width bytes_per_pixel y x b)
              (in_pixels.getD
                (cropInIdx in_width in_height out_width out_height bytes_per_pixel y x b) 0))
          o).getD k d =
          in_pixels.getD
            (cropInIdx in_width in_height out_width out_height bytes_per_pixel y x b) 0) := by
    intro y x o
    exact foldl_range_window _
      (fun b => bytes_per_pixel * out_width * y + bytes_per_pixel * x + b)
      (fun b k => in_pixels.getD
        (cropInIdx in_width in_height out_width out_height bytes_per_pixel y x b) 0)
      bytes_per_pixel
      (fun a b hab => by dsimp only; omega)
      (fun o j => by simp)
      (fun o j k d hk => by
        dsimp only at hk
        apply getD_set_ne
        simp only [cropOutIdx]
        omega)
      (fun o j k d h1 h2 h3 => by
        dsimp only at h1 h2
        have hk : cropOutIdx out_width bytes_per_pixel y x j = k := by
          simp only [cropOutIdx]; omega
        rw [← hk] at h3 ⊢
        exact getD_set_self _ _ _ _ h3)
      o
  have mid : ∀ y (o : List Nat),
      ((List.range out_width).foldl (fun outx x =>
          (List.range bytes_per_pixel).foldl (fun outb b =>
            outb.set (cropOutIdx out_width bytes_per_pixel y x b)
              (in_pixels.getD
                (cropInIdx in_width in_height out_width out_height bytes_per_pixel y x b) 0))
            outx) o).length = o.length ∧
      (∀ k d, k < bytes_per_pixel * out_width * y ∨
          bytes_per_pixel * out_width * y + bytes_per_pixel * out_width ≤ k →
        ((List.range out_width).foldl (fun outx x =>
            (List.range bytes_per_pixel).foldl (fun outb b =>
              outb.set (cropOutIdx out_width bytes_per_pixel y x b)
                (in_pixels.getD
                  (cropInIdx in_width in_height out_width out_height bytes_per_pixel y x b) 0))
              outx) o).getD k d = o.getD k d) ∧
      (∀ x k d, x < out_width →
        bytes_per_pixel * out_width * y + bytes_per_pixel * x ≤ k →
        k < bytes_per_pixel * out_width * y + bytes_per_pixel * x + bytes_per_pixel →
        k < o.length →
        ((List.range out_width).foldl (fun outx x =>
            (List.range bytes_per_pixel).foldl (fun outb b =>
              outb.set (cropOutIdx out_width bytes_per_pixel y x b)
                (in_pixels.getD
                  (cropInIdx in_width in_height out_width out_height bytes_per_pixel y x b) 0))
              outx) o).getD k d =
          in_pixels.getD (cropInIdx in_width in_height out_width out_height bytes_per_pixel
            y x (k - (bytes_per_pixel * out_width * y + bytes_per_pixel * x))) 0) := by
    intro y o
    have base := foldl_range_window
      (fun outx x =>
        (List.range bytes_per_pixel).foldl (fun outb b =>
          outb.set (cropOutIdx out_width bytes_per_pixel y x b)
            (in_pixels.getD
              (cropInIdx in_width in_height out_width out_height bytes_per_pixel y x b) 0))
          outx)
      (fun x => bytes_per_pixel * out_width * y + bytes_per_pixel * x)
      (fun x k => in_pixels.getD (cropInIdx in_width in_height out_width out_height
        bytes_per_pixel y x (k - (bytes_per_pixel * out_width * y + bytes_per_pixel * x))) 0)
      out_width
      (fun a b hab => Nat.add_le_add_left (Nat.mul_le_mul le_rfl hab) _)
      (fun o x => (inner y x o).1)
      (fun o j k d hk => by
        dsimp only at hk
        apply (inner y j o).2.1
        have hj1 : bytes_per_pixel * (j + 1) = bytes_per_pixel * j + bytes_per_pixel := by ring
        omega)
      (fun o j k d h1 h2 h3 => by
        dsimp only at h1 h2
        have hj1 : bytes_per_pixel * (j + 1) = bytes_per_pixel * j + bytes_per_pixel := by ring
        have hb : k - (bytes_per_pixel * out_width * y + bytes_per_pixel * j) <
            bytes_per_pixel := by omega
        have := (inner y j o).2.2
          (k - (bytes_per_pixel * out_width * y + bytes_per_pixel * j)) k d hb
          (by omega) (by omega) h3
        exact this)
      o
    refine ⟨base.1, base.2.1, fun x k d hx h1 h2 h3 => by
      apply base.2.2 x k d hx h1 _ h3
      have hj1 : bytes_per_pixel * (x + 1) = bytes_per_pixel * x + bytes_per_pixel := by ring
      omega⟩
  have outer : ∀ (o : List Nat),
      ((List.range out_height).foldl (fun outy y =>
          (List.range out_width).foldl (fun outx x =>
            (List.range bytes_per_pixel).foldl (fun outb b =>
              outb.set (cropOutIdx out_width bytes_per_pixel y x b)
                (in_pixels.getD
                  (cropInIdx in_width in_height out_width out_height bytes_per_pixel y x b) 0))
              outx) outy) o).length = o.length ∧
      (∀ y k d, y < out_height →
        bytes_per_pixel * out_width * y ≤ k →
        k < bytes_per_pixel * out_width * (y + 1) →
        k < o.length →
        ((List.range out_height).foldl (fun outy y =>
            (List.range out_width).foldl (fun outx x =>
              (List.range bytes_per_pixel).foldl (fun outb b =>
                outb.set (cropOutIdx out_width bytes_per_pixel y x b)
                  (in_pixels.getD
                    (cropInIdx in_width in_height out_width out_height bytes_per_pixel y x b)
                    0)) outx) outy) o).getD k d =
          in_pixels.getD (cropInIdx in_width in_height out_width out_height bytes_per_pixel
            y ((k - bytes_per_pixel * out_width * y) / bytes_per_pixel)
            ((k - bytes_per_pixel * out_width * y) % bytes_per_pixel)) 0) := by
    intro o
    have base := foldl_range_window
      (fun outy y =>
        (List.range out_width).foldl (fun outx x =>
          (List.range bytes_per_pixel).foldl (fun outb b =>
            outb.set (cropOutIdx out_width bytes_per_pixel y x b)
              (in_pixels.getD
                (cropInIdx in_width in_height out_width out_height bytes_per_pixel y x b) 0))
            outx) outy)
      (fun y => bytes_per_pixel * out_width * y)
      (fun y k => in_pixels.getD (cropInIdx in_width in_height out_width out_height
        bytes_per_pixel y ((k - bytes_per_pixel * out_width * y) / bytes_per_pixel)
        ((k - bytes_per_pixel * out_width * y) % bytes_per_pixel)) 0)
      out_height
      (fun a b hab => Nat.mul_le_mul le_rfl hab)
      (fun o y => (mid y o).1)
      (fun o j k d hk => by
        dsimp only at hk
        apply (mid j o).2.1
        have hj1 : bytes_per_pixel * out_width * (j + 1) =
            bytes_per_pixel * out_width * j + bytes_per_pixel * out_width := by ring
        omega)
      (fun o j k d h1 h2 h3 => by
        dsimp only at h1 h2
        have hj1 : bytes_per_pixel * out_width * (j + 1) =
            bytes_per_pixel * out_width * j + bytes_per_pixel * out_width := by ring
        have hpos : 0 < bytes_per_pixel := by
          rcases Nat.eq_zero_or_pos bytes_per_pixel with hz | hpos
          · exfalso
            have : bytes_per_pixel * out_width = 0 := by rw [hz]; ring
            omega
          · exact hpos
        have hdm := Nat.div_add_mod (k - bytes_per_pixel * out_width * j) bytes_per_pixel
        have hmod := Nat.mod_lt (k - bytes_per_pixel * out_width * j) hpos
        have hx : (k - bytes_per_pixel * out_width * j) / bytes_per_pixel < out_width := by
          apply Nat.lt_of_mul_lt_mul_left (a := bytes_per_pixel)
          omega
        have := (mid j o).2.2 ((k - bytes_per_pixel * out_width * j) / bytes_per_pixel) k d
          hx (by omega) (by omega) h3
        rw [this]
        have harg : k - (bytes_per_pixel * out_width * j +
            bytes_per_pixel * ((k - bytes_per_pixel * out_width * j) / bytes_per_pixel)) =
            (k - bytes_per_pixel * out_width * j) % bytes_per_pixel := by omega
        rw [harg])
      o
    exact ⟨base.1, fun y k d hy h1 h2 h3 => base.2.2 y k d hy h1 h2 h3⟩

  refine ⟨?_, ?_, ?_⟩
  · simp [eiml_crop_center, hcond]
  · simp only [eiml_crop_center, if_neg hcond]
    exact (outer out_pixels).1
  · intro y x b d hy hx hb hklen
    simp only [eiml_crop_center, if_neg hcond]
    have hpos : 0 < bytes_per_pixel := Nat.lt_of_le_of_lt (Nat.zero_le b) hb
    have h1 : bytes_per_pixel * out_width * y ≤ cropOutIdx out_width bytes_per_pixel y x b := by
      simp only [cropOutIdx]; omega
    have hxow : bytes_per_pixel * (x + 1) ≤ bytes_per_pixel * out_width :=
      Nat.mul_le_mul le_rfl hx
    have hx1 : bytes_per_pixel * (x + 1) = bytes_per_pixel * x + bytes_per_pixel := by ring
    have hms : bytes_per_pixel * out_width * (y + 1) =
        bytes_per_pixel * out_width * y + bytes_per_pixel * out_width := by ring
    have h2 : cropOutIdx out_width bytes_per_pixel y x b <
        bytes_per_pixel * out_width * (y + 1) := by
      simp only [cropOutIdx]; omega
    have hmain := (outer out_pixels).2 y (cropOutIdx out_width bytes_per_pixel y x b) d
      hy h1 h2 hklen
    rw [hmain]
    have ht : cropOutIdx out_width bytes_per_pixel y x b -
        bytes_per_pixel * out_width * y = bytes_per_pixel * x + b := by
      simp only [cropOutIdx]; omega
    rw [ht]
    have hdiv : (bytes_per_pixel * x + b) / bytes_per_pixel = x := by
      rw [Nat.mul_add_div hpos, Nat.div_eq_of_lt hb, Nat.add_zero]
    have hmod : (bytes_per_pixel * x + b) % bytes_per_pixel = b := by
      rw [Nat.mul_add_mod, Nat.mod_eq_of_lt hb]
    rw [hdiv, hmod]

/-- Both crop indices stay strictly below the corresponding buffer sizes
whenever the crop fits. -/
theorem crop_indices_bounds (in_width in_height out_width out_height bytes_per_pixel y x b : Nat)
    (hw : out_width ≤ in_width) (hh : out_height ≤ in_height)
    (hy : y < out_height) (hx : x < out_width) (hb : b < bytes_per_pixel) :
    cropInIdx in_width in_height out_width out_height bytes_per_pixel y x b <
      in_width * in_height * bytes_per_pixel ∧
    cropOutIdx out_width bytes_per_pixel y x b < out_width * out_height * bytes_per_pixel := by
  have hoy : (in_height - out_height) / 2 ≤ in_height - out_height := Nat.div_le_self _ _
  have hox : (in_width - out_width) / 2 ≤ in_width - out_width := Nat.div_le_self _ _
  have hu : (in_height - out_height) / 2 + y + 1 ≤ in_height := by omega
  have hv : (in_width - out_width) / 2 + x + 1 ≤ in_width := by omega
  constructor
  · simp only [cropInIdx]
    set u := (in_height - out_height) / 2 + y with hu'
    set v := (in_width - out_width) / 2 + x with hv'
    have e1 : bytes_per_pixel * (in_width * u + v + 1) =
        bytes_per_pixel * in_width * u + bytes_per_pixel * v + bytes_per_pixel := by ring
    have e2 : in_width * (u + 1) = in_width * u + in_width := by ring
    have e3 : bytes_per_pixel * (in_width * u + v + 1) ≤
        bytes_per_pixel * (in_width * (u + 1)) := by
      apply Nat.mul_le_mul le_rfl; omega
    have e4 : bytes_per_pixel * (in_width * (u + 1)) ≤
        bytes_per_pixel * (in_width * in_height) :=
      Nat.mul_le_mul le_rfl (Nat.mul_le_mul le_rfl (by omega))
    have e5 : bytes_per_pixel * (in_width * in_height) =
        in_width * in_height * bytes_per_pixel := by ring
    omega
  · simp only [cropOutIdx]
    have e1 : bytes_per_pixel * (out_width * y + x + 1) =
        bytes_per_pixel * out_width * y + bytes_per_pixel * x + bytes_per_pixel := by ring
    have e2 : out_width * (y + 1) = out_width * y + out_width := by ring
    have e3 : bytes_per_pixel * (out_width * y + x + 1) ≤
        bytes_per_pixel * (out_width * (y + 1)) := by
      apply Nat.mul_le_mul le_rfl; omega
    have e4 : bytes_per_pixel * (out_width * (y + 1)) ≤
        bytes_per_pixel * (out_width * out_height) :=
      Nat.mul_le_mul le_rfl (Nat.mul_le_mul le_rfl (by omega))
    have e5 : bytes_per_pixel * (out_width * out_height) =
        out_width * out_height * bytes_per_pixel := by ring
    omega

/-- Characterization of `eiml_rgb565_to_rgb888`: always `EIML_OK`, output
length preserved, and for each pixel `i` the three output bytes are the
converted channels of input bytes `2*i` and `2*i+1`. -/
theorem eiml_rgb565_to_rgb888_spec (in_pixels out_pixels : List Nat) (num_pixels : Nat) :
    (eiml_rgb565_to_rgb888 in_pixels out_pixels num_pixels).1 = EimlRet.EIML_OK ∧
    (eiml_rgb565_to_rgb888 in_pixels out_pixels num_pixels).2.length = out_pixels.length ∧
    (∀ i d, i < num_pixels → 3 * i + 2 < out_pixels.length →
      (eiml_rgb565_to_rgb888 in_pixels out_pixels num_pixels).2.getD (3 * i) d =
        rgb565_r (in_pixels.getD (2 * i) 0) ∧
      (eiml_rgb565_to_rgb888 in_pixels out_pixels num_pixels).2.getD (3 * i + 1) d =
        rgb565_g (in_pixels.getD (2 * i) 0) (in_pixels.getD (2 * i + 1) 0) ∧
      (eiml_rgb565_to_rgb888 in_pixels out_pixels num_pixels).2.getD (3 * i + 2) d =
        rgb565_b (in_pixels.getD (2 * i + 1) 0)) := by
  have base := foldl_range_window
    (fun o i =>
      ((o.set (3 * i) (rgb565_r (in_pixels.getD (2 * i) 0))).set (3 * i + 1)
          (rgb565_g (in_pixels.getD (2 * i) 0) (in_pixels.getD (2 * i + 1) 0))).set
        (3 * i + 2) (rgb565_b (in_pixels.getD (2 * i + 1) 0)))
    (fun i => 3 * i)
    (fun i k =>
      if k = 3 * i then rgb565_r (in_pixels.getD (2 * i) 0)
      else if k = 3 * i + 1 then
        rgb565_g (in_pixels.getD (2 * i) 0) (in_pixels.getD (2 * i + 1) 0)
      else rgb565_b (in_pixels.getD (2 * i + 1) 0))
    num_pixels
    (fun a b hab => by dsimp only; omega)
    (fun o j => by simp)
    (fun o j k d hk => by
      dsimp only at hk
      rw [getD_set_ne _ _ _ _ _ (by omega), getD_set_ne _ _ _ _ _ (by omega),
        getD_set_ne _ _ _ _ _ (by omega)])
    (fun o j k d h1 h2 h3 => by
      dsimp only at h1 h2 ⊢
      have hcase : k = 3 * j ∨ k = 3 * j + 1 ∨ k = 3 * j + 2 := by omega
      rcases hcase with rfl | rfl | rfl
      · rw [getD_set_ne _ _ _ _ _ (by omega), getD_set_ne _ _ _ _ _ (by omega),
          getD_set_self _ _ _ _ h3]
        simp
      · rw [getD_set_ne _ _ _ _ _ (by omega), getD_set_self]
        · rw [if_neg (by omega), if_pos rfl]
        · simpa using h3
      · rw [getD_set_self]
        · rw [if_neg (by omega), if_neg (by omega)]
        · simpa using h3)
    out_pixels
  refine ⟨rfl, base.1, fun i d hi hlen => ?_⟩
  have h0 := base.2.2 i (3 * i) d hi (by omega) (by omega) (by omega)
  have h1 := base.2.2 i (3 * i + 1) d hi (by omega) (by omega) (by omega)
  have h2 := base.2.2 i (3 * i + 2) d hi (by omega) (by omega) hlen
  refine ⟨?_, ?_, ?_⟩
  · rw [show (eiml_rgb565_to_rgb888 in_pixels out_pixels num_pixels).2 =
      (List.range num_pixels).foldl _ out_pixels from rfl]
    rw [h0, if_pos rfl]
  · rw [show (eiml_rgb565_to_rgb888 in_pixels out_pixels num_pixels).2 =
      (List.range num_pixels).foldl _ out_pixels from rfl]
    rw [h1, if_neg (by omega), if_pos rfl]
  · rw [show (eiml_rgb565_to_rgb888 in_pixels out_pixels num_pixels).2 =
      (List.range num_pixels).foldl _ out_pixels from rfl]
    rw [h2, if_neg (by omega), if_neg (by omega)]

/-- Little-endian byte extraction: the shift-and-mask the code performs
equals the `i`-th base-256 digit. -/
theorem byte_extract_eq (w i : Nat) : (w >>> (i * 8)) &&& 0xFF = w / 256 ^ i % 256 := by
  have h255 : (0xFF : Nat) = 2 ^ 8 - 1 := by norm_num
  rw [Nat.shiftRight_eq_div_pow, h255, Nat.and_pow_two_sub_one_eq_mod]
  have h2 : (2 : Nat) ^ (i * 8) = 256 ^ i := by
    rw [Nat.mul_comm, Nat.pow_mul]
  rw [h2]

/-- Characterization of `eiml_generate_header` on a 12-byte buffer: always
`EIML_OK`, and the buffer becomes exactly the 12 header bytes. -/
theorem eiml_generate_header_spec (header : EimlHeader) (out_header : List Nat)
    (hlen : out_header.length = 12) :
    eiml_generate_header header out_header =
      (EimlRet.EIML_OK,
        [0xFF, 0xA0, 0xFF, header.format,
         (header.width >>> (0 * 8)) &&& 0xFF, (header.width >>> (1 * 8)) &&& 0xFF,
         (header.width >>> (2 * 8)) &&& 0xFF, (header.width >>> (3 * 8)) &&& 0xFF,
         (header.height >>> (0 * 8)) &&& 0xFF, (header.height >>> (1 * 8)) &&& 0xFF,
         (header.height >>> (2 * 8)) &&& 0xFF, (header.height >>> (3 * 8)) &&& 0xFF]) := by
  have h3 : List.range 3 = [0, 1, 2] := rfl
  have h4 : List.range 4 = [0, 1, 2, 3] := rfl
  simp only [eiml_generate_header, h3, h4, List.foldl_cons, List.foldl_nil]
  congr 1
  apply List.ext_getElem
  · simp [hlen]
  · intro i h1 h2
    simp only [List.length_cons, List.length_nil] at h2
    interval_cases i <;> simp [List.getElem_set, EIML_SOF, hlen]

theorem or_mod_two_pow (a b k : Nat) : (a ||| b) % 2 ^ k = (a % 2 ^ k) ||| (b % 2 ^ k) := by
  apply Nat.eq_of_testBit_eq
  intro i
  simp only [Nat.testBit_mod_two_pow, Nat.testBit_or]
  by_cases h : i < k <;> simp [h]

/-- The masked-shifted second term of the green byte is below 32. -/
theorem green_low_lt (lb : Nat) : (lb &&& 0xE0) >>> 3 < 32 := by
  have h1 : lb &&& 0xE0 ≤ 0xE0 := Nat.and_le_right
  rw [Nat.shiftRight_eq_div_pow]
  omega

/-- The code's green byte equals the one the specification describes: the
low 3 bits of the high byte shifted left 5, ORterm of the low byte. -/
theorem rgb565_g_eq (hb lb : Nat) :
    rgb565_g hb lb = ((hb % 8) <<< 5) ||| ((lb &&& 0xE0) >>> 3) := by
  have hx := green_low_lt lb
  have h256 : (256 : Nat) = 2 ^ 8 := by norm_num
  have hshift : (hb <<< 5) % 256 = (hb % 8) <<< 5 := by
    rw [Nat.shiftLeft_eq, Nat.shiftLeft_eq]
    norm_num
    omega
  have hxmod : ((lb &&& 0xE0) >>> 3) % 256 = (lb &&& 0xE0) >>> 3 :=
    Nat.mod_eq_of_lt (by omega)
  rw [rgb565_g, h256, or_mod_two_pow, ← h256, hshift, hxmod]

/-- The code's red byte is the plain mask of the high byte. -/
theorem rgb565_r_eq (hb : Nat) : rgb565_r hb = hb &&& 0xF8 := by
  have h1 : hb &&& 0xF8 ≤ 0xF8 := Nat.and_le_right
  rw [rgb565_r]
  omega

theorem getD_lt_256 (l : List Nat) (i : Nat) (h : ∀ v ∈ l, v < 256) : l.getD i 0 < 256 := by
  rw [List.getD_eq_getElem?_getD]
  cases hx : l[i]? with
  | none => simp
  | some v => simpa using h v (List.getElem?_mem hx)

/-!
### Base64 and the serial transport

`base64.h` is included by all three sketches but its source is not among
the repository files available here, so the encoder is modelled from the
specification.
-/

/-- Modelled from the spec: the Base64 digit alphabet used by the
`base64.h` encoder, as ASCII codes (`A`–`Z`, `a`–`z`, `0`–`9`, `+`, `/`). -/
def b64digit (n : Nat) : Nat :=
  if n < 26 then 65 + n
  else if n < 52 then 97 + (n - 26)
  else if n < 62 then 48 + (n - 52)
  else if n = 62 then 43
  else 47

/-- Modelled from the spec: `encode_base64` of `base64.h` — the standard
reversible Base64 rendering of a byte sequence, 4 digit bytes per 3 input
bytes with `=` (ASCII 61) padding, `ceil(n/3)*4` digit bytes total.  The
null terminator the encoder also writes is accounted separately, see
`encode_base64_bytes_written`. -/
def encode_base64 : List Nat → List Nat
  | [] => []
  | [a] => [b64digit (a / 4), b64digit (a % 4 * 16), 61, 61]
  | [a, b] => [b64digit (a / 4), b64digit (a % 4 * 16 + b / 16), b64digit (b % 16 * 4), 61]
  | a :: b :: c :: rest =>
      b64digit (a / 4) :: b64digit (a % 4 * 16 + b / 16) ::
        b64digit (b % 16 * 4 + c / 64) :: b64digit (c % 64) :: encode_base64 rest

/-- Modelled from the spec: the number of bytes `encode_base64` writes into
its output buffer — the Base64 digit bytes plus the trailing null
terminator (the spec's Text-Encoded Output is "always null/newline-
terminated"). -/
def encode_base64_bytes_written (l : List Nat) : Nat := (encode_base64 l).length + 1

theorem encode_base64_length : ∀ l : List Nat,
    (encode_base64 l).length = (l.length + 2) / 3 * 4
  | [] => rfl
  | [_] => by simp [encode_base64]
  | [_, _] => by simp [encode_base64]
  | _ :: _ :: _ :: rest => by
      have ih := encode_base64_length rest
      simp only [encode_base64, List.length_cons]
      omega

theorem b64digit_gt_42 (n : Nat) : 42 < b64digit n := by
  unfold b64digit
  split_ifs <;> omega

theorem encode_base64_gt_42 : ∀ l : List Nat, ∀ c ∈ encode_base64 l, 42 < c
  | [] => by simp [encode_base64]
  | [a] => by
      intro c hc
      simp only [encode_base64, List.mem_cons, List.not_mem_nil, or_false] at hc
      rcases hc with rfl | rfl | rfl | rfl
      · exact b64digit_gt_42 _
      · exact b64digit_gt_42 _
      · omega
      · omega
  | [a, b] => by
      intro c hc
      simp only [encode_base64, List.mem_cons, List.not_mem_nil, or_false] at hc
      rcases hc with rfl | rfl | rfl | rfl
      · exact b64digit_gt_42 _
      · exact b64digit_gt_42 _
      · exact b64digit_gt_42 _
      · omega
  | a :: b :: c :: rest => by
      intro x hx
      simp only [encode_base64, List.mem_cons] at hx
      rcases hx with rfl | rfl | rfl | rfl | hx
      · exact b64digit_gt_42 _
      · exact b64digit_gt_42 _
      · exact b64digit_gt_42 _
      · exact b64digit_gt_42 _
      · exact encode_base64_gt_42 rest x hx

/-- One write to the serial transport.  `print` sends the bytes of a C
string as-is; `println` additionally sends the line terminator `\r\n`
(bytes 13, 10), as Arduino's `Serial.println` does. -/
inductive SerialWrite where
  | print (bytes : List Nat)
  | println (bytes : List Nat)
deriving DecidableEq, Repr

/-- The raw bytes a single write puts on the wire. -/
def SerialWrite.wire : SerialWrite → List Nat
  | .print s => s
  | .println s => s ++ [13, 10]

/-- The raw byte stream of a sequence of writes. -/
def wireBytes (ws : List SerialWrite) : List Nat :=
  (ws.map SerialWrite.wire).flatten

/-- ASCII bytes of a diagnostic string literal. -/
def strBytes (s : String) : List Nat := s.data.map Char.toNat

/-- One iteration of the nano33 sketch's `loop()`, parameterized by the
camera and crop dimensions the sketch fixes at compile time.  `cam_img` is
the frame `Camera.readFrame` just filled; `crop_buf` and `rgb_buf` are the
current contents of the static `crop_img` and `rgb888_img` buffers.
Returns the iteration's serial writes together with the new contents of
the two static buffers.  The local `header_buf` array is uninitialized in
the source and fully overwritten before use; it enters as zeros here. -/
def nano33_loop_iter (cam_width cam_height crop_width crop_height : Nat)
    (cam_img crop_buf rgb_buf : List Nat) :
    List SerialWrite × List Nat × List Nat :=
  let crop := eiml_crop_center cam_img cam_width cam_height crop_buf crop_width crop_height 2
  if crop.1 ≠ EimlRet.EIML_OK then
    ([SerialWrite.println (strBytes "Image cropping error")], crop.2, rgb_buf)
  else
    let conv := eiml_rgb565_to_rgb888 crop.2 rgb_buf (crop_width * crop_height)
    if conv.1 ≠ EimlRet.EIML_OK then
      ([SerialWrite.println (strBytes "Image conversion error")], crop.2, conv.2)
    else
      let enc_buf := encode_base64 conv.2
      let hdr := eiml_generate_header ⟨1, crop_width, crop_height⟩ (List.replicate 12 0)
      if hdr.1 ≠ EimlRet.EIML_OK then
        ([SerialWrite.println (strBytes "Error generating header")], crop.2, conv.2)
      else
        ([SerialWrite.print (encode_base64 hdr.2), SerialWrite.println enc_buf],
          crop.2, conv.2)

/-- One iteration of `nano33_tinyml_kit_image_serial.ino`'s `loop()` with
the sketch's actual constants (`cam 160×120`, crop `64×64`, 2 bytes per
pixel). -/
def nano33_iteration (cam_img crop_buf rgb_buf : List Nat) :
    List SerialWrite × List Nat × List Nat :=
  nano33_loop_iter 160 120 64 64 cam_img crop_buf rgb_buf

/-- Run of the nano33 loop over a list of captured frames, threading the
static image buffers from one iteration to the next. -/
def nano33_run (frames : List (List Nat)) (crop_buf rgb_buf : List Nat) :
    List (List SerialWrite) :=
  match frames with
  | [] => []
  | f :: rest =>
      (nano33_iteration f crop_buf rgb_buf).1 ::
        nano33_run rest (nano33_iteration f crop_buf rgb_buf).2.1
          (nano33_iteration f crop_buf rgb_buf).2.2

/-- The RGB888 frame body the nano33 sketch transmits: the cropped frame
converted to RGB888. -/
def nano33_frame_body (cam_img crop_buf rgb_buf : List Nat) : List Nat :=
  (eiml_rgb565_to_rgb888 (eiml_crop_center cam_img 160 120 crop_buf 64 64 2).2
    rgb_buf (64 * 64)).2

/-- The 12 header bytes the nano33 sketch sends (format `EIML_RGB888 = 1`,
width 64, height 64). -/
def nano33_header_bytes : List Nat := [0xFF, 0xA0, 0xFF, 1, 64, 0, 0, 0, 64, 0, 0, 0]

/-- Input to one iteration of the esp32 sketches' `loop()`: the result of
`esp_camera_fb_get` (`none` models a failed acquisition) and, for the
RGB888-capture variant, the result of `fmt2jpg` on that frame (`none`
models a failed JPEG conversion). -/
structure Esp32Input where
  fb : Option (List Nat)
  jpg : Option (List Nat)
deriving DecidableEq, Repr

/-- One iteration of `esp32_cam_image_serial.ino`'s `loop()`. -/
def esp32_serial_iteration (inp : Esp32Input) : List SerialWrite :=
  match inp.fb with
  | none => [SerialWrite.println (strBytes "Camera capture failed")]
  | some _ =>
    match inp.jpg with
    | none =>
        [SerialWrite.println (strBytes "ERROR: Could not convert image to JPEG format")]
    | some jpg_buf => [SerialWrite.println (encode_base64 jpg_buf)]

/-- One iteration of `esp32_cam_image_capture_02.ino`'s `loop()` (the
camera delivers hardware JPEG directly). -/
def esp32_cap02_iteration (fb : Option (List Nat)) : List SerialWrite :=
  match fb with
  | none => [SerialWrite.println (strBytes "Camera capture failed")]
  | some jpg => [SerialWrite.println (encode_base64 jpg)]

/-- Run of the esp32 RGB888-variant loop over a list of iteration inputs.
The loop body has no static locals and frees its buffers each iteration,
so the run is iteration-by-iteration. -/
def esp32_serial_run (inps : List Esp32Input) : List (List SerialWrite) :=
  match inps with
  | [] => []
  | i :: rest => esp32_serial_iteration i :: esp32_serial_run rest

/-- The `enc_len` formula of `nano33_tinyml_kit_image_serial.ino`:
`(c888_img_bytes + 2) / 3 * 4`. -/
def nano33_enc_len (n : Nat) : Nat := (n + 2) / 3 * 4

/-- The `enc_len` formula of `esp32_cam_image_serial.ino`:
`(jpg_len + 2) / 3 * 4`. -/
def esp32_serial_enc_len (n : Nat) : Nat := (n + 2) / 3 * 4

/-- The `enc_len` formula of `esp32_cam_image_capture_02.ino`:
`(fb->len + 2) / 3 * 4`. -/
def esp32_cap02_enc_len (n : Nat) : Nat := (n + 2) / 3 * 4

/-- The size of the nano33 sketch's `enc_header` stack array:
`(EIML_HEADER_SIZE + 2) / 3 * 4` bytes, with no extra byte added. -/
def enc_header_size : Nat := (EIML_HEADER_SIZE + 2) / 3 * 4

/-- The heap allocation at the three `malloc` sites: `enc_len + 1` bytes. -/
def malloc_enc_size (n : Nat) : Nat := (n + 2) / 3 * 4 + 1

/-- With the sketch's actual constants no pipeline step can fail, so every
nano33 iteration transmits: first `Serial.print` of the Base64 header text,
then `Serial.println` of the Base64 frame body. -/
theorem nano33_iteration_success (cam_img crop_buf rgb_buf : List Nat) :
    (nano33_iteration cam_img crop_buf rgb_buf).1 =
      [SerialWrite.print (encode_base64 nano33_header_bytes),
       SerialWrite.println (encode_base64 (nano33_frame_body cam_img crop_buf rgb_buf))] ∧
    (nano33_iteration cam_img crop_buf rgb_buf).2.1 =
      (eiml_crop_center cam_img 160 120 crop_buf 64 64 2).2 ∧
    (nano33_iteration cam_img crop_buf rgb_buf).2.2 =
      nano33_frame_body cam_img crop_buf rgb_buf := by
  have hcrop : (eiml_crop_center cam_img 160 120 crop_buf 64 64 2).1 = EimlRet.EIML_OK :=
    (eiml_crop_center_spec cam_img 160 120 crop_buf 64 64 2 (by norm_num) (by norm_num)).1
  have hconv : ∀ a b n, (eiml_rgb565_to_rgb888 a b n).1 = EimlRet.EIML_OK := fun _ _ _ => rfl
  have hgen1 : (eiml_generate_header ⟨1, 64, 64⟩ (List.replicate 12 0)).1 =
      EimlRet.EIML_OK := by decide
  have hgen2 : (eiml_generate_header ⟨1, 64, 64⟩ (List.replicate 12 0)).2 =
      nano33_header_bytes := by decide
  simp only [nano33_iteration, nano33_loop_iter, hcrop, hconv, hgen1, hgen2,
    nano33_frame_body, ne_eq, not_true_eq_false, if_false, ite_false]
  simp

/-- With the nano33 constants and a correctly sized output buffer, the crop
result is fully determined by the captured frame: every byte of the output
buffer is overwritten. -/
theorem nano33_crop_deterministic (cam c1 c2 : List Nat)
    (h1 : c1.length = 64 * 64 * 2) (h2 : c2.length = 64 * 64 * 2) :
    (eiml_crop_center cam 160 120 c1 64 64 2).2 =
      (eiml_crop_center cam 160 120 c2 64 64 2).2 := by
  have s1 := eiml_crop_center_spec cam 160 120 c1 64 64 2 (by norm_num) (by norm_num)
  have s2 := eiml_crop_center_spec cam 160 120 c2 64 64 2 (by norm_num) (by norm_num)
  apply List.ext_getElem
  · rw [s1.2.1, s2.2.1, h1, h2]
  · intro k hk1 hk2
    have hkb : k < 64 * 64 * 2 := by
      have h := hk1
      rwa [s1.2.1, h1] at h
    have hy : k / 128 < 64 := by omega
    have hx : k % 128 / 2 < 64 := by omega
    have hb : k % 2 < 2 := by omega
    have hidx : cropOutIdx 64 2 (k / 128) (k % 128 / 2) (k % 2) = k := by
      simp only [cropOutIdx]; omega
    have e1 := s1.2.2 (k / 128) (k % 128 / 2) (k % 2) 0 hy hx hb (by rw [hidx, h1]; omega)
    have e2 := s2.2.2 (k / 128) (k % 128 / 2) (k % 2) 0 hy hx hb (by rw [hidx, h2]; omega)
    rw [hidx] at e1 e2
    rw [← List.getD_eq_getElem _ 0 hk1, ← List.getD_eq_getElem _ 0 hk2, e1, e2]

/-- Likewise the RGB888 conversion result is fully determined by its input
buffer: every byte of a correctly sized output buffer is overwritten. -/
theorem nano33_conv_deterministic (inp r1 r2 : List Nat)
    (h1 : r1.length = 64 * 64 * 3) (h2 : r2.length = 64 * 64 * 3) :
    (eiml_rgb565_to_rgb888 inp r1 (64 * 64)).2 =
      (eiml_rgb565_to_rgb888 inp r2 (64 * 64)).2 := by
  have s1 := eiml_rgb565_to_rgb888_spec inp r1 (64 * 64)
  have s2 := eiml_rgb565_to_rgb888_spec inp r2 (64 * 64)
  apply List.ext_getElem
  · rw [s1.2.1, s2.2.1, h1, h2]
  · intro k hk1 hk2
    have hkb : k < 64 * 64 * 3 := by
      have h := hk1
      rwa [s1.2.1, h1] at h
    obtain ⟨i, t, ht3, rfl⟩ : ∃ i t, t < 3 ∧ k = 3 * i + t :=
      ⟨k / 3, k % 3, by omega, by omega⟩
    have hi : i < 64 * 64 := by omega
    have t1 := s1.2.2 i 0 hi (by omega)
    have t2 := s2.2.2 i 0 hi (by omega)
    rw [← List.getD_eq_getElem _ 0 hk1, ← List.getD_eq_getElem _ 0 hk2]
    interval_cases t
    · simp only [Nat.add_zero]
      rw [t1.1, t2.1]
    · rw [t1.2.1, t2.2.1]
    · rw [t1.2.2, t2.2.2]

/-- The serial writes of a nano33 iteration depend only on the captured
frame, not on what the static buffers held before the iteration. -/
theorem nano33_writes_deterministic (cam c1 r1 c2 r2 : List Nat)
    (hc1 : c1.length = 64 * 64 * 2) (hr1 : r1.length = 64 * 64 * 3)
    (hc2 : c2.length = 64 * 64 * 2) (hr2 : r2.length = 64 * 64 * 3) :
    (nano33_iteration cam c1 r1).1 = (nano33_iteration cam c2 r2).1 := by
  have hbody : nano33_frame_body cam c1 r1 = nano33_frame_body cam c2 r2 := by
    unfold nano33_frame_body
    rw [nano33_crop_deterministic cam c1 c2 hc1 hc2]
    exact nano33_conv_deterministic _ r1 r2 hr1 hr2
  rw [(nano33_iteration_success cam c1 r1).1, (nano33_iteration_success cam c2 r2).1, hbody]

/-- The nano33 run is memoryless at the level of serial writes: each
iteration's writes are those of the pipeline applied afresh to that
iteration's frame. -/
theorem nano33_run_writes (frames : List (List Nat)) (cb rb : List Nat)
    (hcb : cb.length = 64 * 64 * 2) (hrb : rb.length = 64 * 64 * 3) :
    nano33_run frames cb rb =
      frames.map (fun f =>
        (nano33_iteration f (List.replicate (64 * 64 * 2) 0)
          (List.replicate (64 * 64 * 3) 0)).1) := by
  induction frames generalizing cb rb with
  | nil => rfl
  | cons f rest ih =>
    simp only [nano33_run, List.map_cons]
    refine congrArg₂ List.cons ?_ ?_
    · exact nano33_writes_deterministic f cb rb
        (List.replicate (64 * 64 * 2) 0) (List.replicate (64 * 64 * 3) 0) hcb hrb
        (by rw [List.length_replicate]) (by rw [List.length_replicate])
    · apply ih
      · rw [(nano33_iteration_success f cb rb).2.1,
          (eiml_crop_center_spec f 160 120 cb 64 64 2 (by norm_num) (by norm_num)).2.1, hcb]
      · rw [(nano33_iteration_success f cb rb).2.2]
        unfold nano33_frame_body
        rw [(eiml_rgb565_to_rgb888_spec _ rb (64 * 64)).2.1, hrb]

/-- The esp32 run is the iteration-wise map: no state crosses iterations. -/
theorem esp32_serial_run_eq_map (inps : List Esp32Input) :
    esp32_serial_run inps = inps.map esp32_serial_iteration := by
  induction inps with
  | nil => rfl
  | cons i rest ih => simp [esp32_serial_run, ih]

/-- The writes of iteration `k` of the esp32 run are those of the
iteration function on input `k`. -/
theorem esp32_serial_run_getD (inps : List Esp32Input) (i : Nat) (h : i < inps.length) :
    (esp32_serial_run inps).getD i [] =
      esp32_serial_iteration (inps.getD i ⟨none, none⟩) := by
  induction inps generalizing i with
  | nil => simp at h
  | cons a rest ih =>
    cases i with
    | zero => rfl
    | succ n =>
      simp only [esp32_serial_run]
      rw [List.getD_cons_succ, List.getD_cons_succ]
      exact ih n (by simpa using h)

/-!
### Claim theorems
-/

/-- C1: For every input buffer of `in_width × in_height` pixels with
`bytes_per_pixel` bytes each and every `out_width ≤ in_width`,
`out_height ≤ in_height`, `eiml_crop_center` returns `EIML_OK` and the
output buffer holds exactly `out_width * out_height * bytes_per_pixel`
bytes equal to the centered sub-rectangle of the input whose top-left
offsets are `(in_width − out_width) / 2` and `(in_height − out_height) / 2`
under integer (floor) division. -/
theorem C1_crop_center_correct (in_pixels : List Nat) (in_width in_height : Nat)
    (out_pixels : List Nat) (out_width out_height bytes_per_pixel : Nat)
    (hin : in_pixels.length = in_width * in_height * bytes_per_pixel)
    (hout : out_pixels.length = out_width * out_height * bytes_per_pixel)
    (hw : out_width ≤ in_width) (hh : out_height ≤ in_height) :
    (eiml_crop_center in_pixels in_width in_height out_pixels out_width out_height
        bytes_per_pixel).1 = EimlRet.EIML_OK ∧
    (eiml_crop_center in_pixels in_width in_height out_pixels out_width out_height
        bytes_per_pixel).2.length = out_width * out_height * bytes_per_pixel ∧
    (∀ y x b, y < out_height → x < out_width → b < bytes_per_pixel →
      (eiml_crop_center in_pixels in_width in_height out_pixels out_width out_height
          bytes_per_pixel).2.getD ((y * out_width + x) * bytes_per_pixel + b) 0 =
        in_pixels.getD
          ((((in_height - out_height) / 2 + y) * in_width +
            ((in_width - out_width) / 2 + x)) * bytes_per_pixel + b) 0) := by
  have spec := eiml_crop_center_spec in_pixels in_width in_height out_pixels
    out_width out_height bytes_per_pixel hw hh
  refine ⟨spec.1, by rw [spec.2.1, hout], ?_⟩
  intro y x b hy hx hb
  have hidxo : (y * out_width + x) * bytes_per_pixel + b =
      cropOutIdx out_width bytes_per_pixel y x b := by
    simp only [cropOutIdx]; ring
  have hidxi : (((in_height - out_height) / 2 + y) * in_width +
      ((in_width - out_width) / 2 + x)) * bytes_per_pixel + b =
      cropInIdx in_width in_height out_width out_height bytes_per_pixel y x b := by
    simp only [cropInIdx]; ring
  rw [hidxo, hidxi]
  apply spec.2.2 y x b 0 hy hx hb
  rw [hout]
  exact (crop_indices_bounds in_width in_height out_width out_height bytes_per_pixel
    y x b hw hh hy hx hb).2

/-- Witness for C1 at a concrete 3×3 → 2×2 single-byte-pixel crop. -/
theorem C1_crop_center_correct_witness :
    (([0, 1, 2, 3, 4, 5, 6, 7, 8] : List Nat).length = 3 * 3 * 1 ∧
     ([9, 9, 9, 9] : List Nat).length = 2 * 2 * 1 ∧ 2 ≤ 3 ∧ 2 ≤ 3) ∧
    ((eiml_crop_center [0, 1, 2, 3, 4, 5, 6, 7, 8] 3 3 [9, 9, 9, 9] 2 2 1).1 =
        EimlRet.EIML_OK ∧
     (eiml_crop_center [0, 1, 2, 3, 4, 5, 6, 7, 8] 3 3 [9, 9, 9, 9] 2 2 1).2.length =
        2 * 2 * 1 ∧
     (∀ y x b, y < 2 → x < 2 → b < 1 →
       (eiml_crop_center [0, 1, 2, 3, 4, 5, 6, 7, 8] 3 3 [9, 9, 9, 9] 2 2 1).2.getD
          ((y * 2 + x) * 1 + b) 0 =
         ([0, 1, 2, 3, 4, 5, 6, 7, 8] : List Nat).getD
           ((((3 - 2) / 2 + y) * 3 + ((3 - 2) / 2 + x)) * 1 + b) 0)) :=
  ⟨⟨by decide, by decide, by decide, by decide⟩,
   C1_crop_center_correct [0, 1, 2, 3, 4, 5, 6, 7, 8] 3 3 [9, 9, 9, 9] 2 2 1
     (by decide) (by decide) (by decide) (by decide)⟩

/-- C2: For every `num_pixels` and input buffer of `num_pixels` 2-byte
RGB565 samples, `eiml_rgb565_to_rgb888` returns `EIML_OK` and writes, for
each pixel `i`, red = high byte AND `0xF8`, green = (low 3 bits of the
high byte shifted left 5) OR ((low byte AND `0xE0`) shifted right 3),
blue = low byte shifted left 3, all truncated to 8 bits; input `0xFFFF`
yields `(0xF8, 0xFC, 0xF8)`. -/
theorem C2_rgb565_to_rgb888_correct (in_pixels out_pixels : List Nat) (num_pixels : Nat)
    (hin : in_pixels.length = 2 * num_pixels)
    (hout : out_pixels.length = 3 * num_pixels) :
    (eiml_rgb565_to_rgb888 in_pixels out_pixels num_pixels).1 = EimlRet.EIML_OK ∧
    (∀ i, i < num_pixels →
      (eiml_rgb565_to_rgb888 in_pixels out_pixels num_pixels).2.getD (3 * i) 0 =
        in_pixels.getD (2 * i) 0 &&& 0xF8 ∧
      (eiml_rgb565_to_rgb888 in_pixels out_pixels num_pixels).2.getD (3 * i + 1) 0 =
        ((in_pixels.getD (2 * i) 0 % 8) <<< 5) |||
          ((in_pixels.getD (2 * i + 1) 0 &&& 0xE0) >>> 3) ∧
      (eiml_rgb565_to_rgb888 in_pixels out_pixels num_pixels).2.getD (3 * i + 2) 0 =
        in_pixels.getD (2 * i + 1) 0 <<< 3 % 256) ∧
    (rgb565_r 0xFF = 0xF8 ∧ rgb565_g 0xFF 0xFF = 0xFC ∧ rgb565_b 0xFF = 0xF8) := by
  have spec := eiml_rgb565_to_rgb888_spec in_pixels out_pixels num_pixels
  refine ⟨spec.1, ?_, by decide, by decide, by decide⟩
  intro i hi
  have h := spec.2.2 i 0 hi (by omega)
  refine ⟨?_, ?_, ?_⟩
  · rw [h.1, rgb565_r_eq]
  · rw [h.2.1, rgb565_g_eq]
  · rw [h.2.2]
    simp only [rgb565_b]

/-- Witness for C2 on the single white pixel `0xFFFF`. -/
theorem C2_rgb565_to_rgb888_correct_witness :
    (([0xFF, 0xFF] : List Nat).length = 2 * 1 ∧ ([0, 0, 0] : List Nat).length = 3 * 1) ∧
    ((eiml_rgb565_to_rgb888 [0xFF, 0xFF] [0, 0, 0] 1).1 = EimlRet.EIML_OK ∧
     (∀ i, i < 1 →
       (eiml_rgb565_to_rgb888 [0xFF, 0xFF] [0, 0, 0] 1).2.getD (3 * i) 0 =
         ([0xFF, 0xFF] : List Nat).getD (2 * i) 0 &&& 0xF8 ∧
       (eiml_rgb565_to_rgb888 [0xFF, 0xFF] [0, 0, 0] 1).2.getD (3 * i + 1) 0 =
         ((([0xFF, 0xFF] : List Nat).getD (2 * i) 0 % 8) <<< 5) |||
           ((([0xFF, 0xFF] : List Nat).getD (2 * i + 1) 0 &&& 0xE0) >>> 3) ∧
       (eiml_rgb565_to_rgb888 [0xFF, 0xFF] [0, 0, 0] 1).2.getD (3 * i + 2) 0 =
         ([0xFF, 0xFF] : List Nat).getD (2 * i + 1) 0 <<< 3 % 256) ∧
     (rgb565_r 0xFF = 0xF8 ∧ rgb565_g 0xFF 0xFF = 0xFC ∧ rgb565_b 0xFF = 0xF8)) :=
  ⟨⟨by decide, by decide⟩,
   C2_rgb565_to_rgb888_correct [0xFF, 0xFF] [0, 0, 0] 1 (by decide) (by decide)⟩

/-- C3: For every format tag and unsigned 32-bit width and height,
`eiml_generate_header` returns `EIML_OK` and writes exactly 12 bytes:
marker `0xFF 0xA0 0xFF`, the format byte, 4 little-endian width bytes,
4 little-endian height bytes; format 1, width 64, height 64 gives
`[0xFF,0xA0,0xFF,0x01,0x40,0,0,0,0x40,0,0,0]`. -/
theorem C3_generate_header_correct (format width height : Nat) (out_header : List Nat)
    (hfmt : format < 256) (hwidth : width < 2 ^ 32) (hheight : height < 2 ^ 32)
    (hlen : out_header.length = 12) :
    eiml_generate_header ⟨format, width, height⟩ out_header =
      (EimlRet.EIML_OK,
        [0xFF, 0xA0, 0xFF, format,
         width % 256, width / 256 % 256, width / 256 ^ 2 % 256, width / 256 ^ 3 % 256,
         height % 256, height / 256 % 256, height / 256 ^ 2 % 256,
         height / 256 ^ 3 % 256]) ∧
    eiml_generate_header ⟨1, 64, 64⟩ (List.replicate 12 0) =
      (EimlRet.EIML_OK,
        [0xFF, 0xA0, 0xFF, 0x01, 0x40, 0x00, 0x00, 0x00, 0x40, 0x00, 0x00, 0x00]) := by
  refine ⟨?_, by decide⟩
  rw [eiml_generate_header_spec _ _ hlen]
  have b0 : ∀ w : Nat, w &&& 255 = w % 256 := fun w => by simpa using byte_extract_eq w 0
  simp [b0, Nat.shiftRight_eq_div_pow]

/-- Witness for C3 at format 1, width 64, height 64. -/
theorem C3_generate_header_correct_witness :
    ((1 : Nat) < 256 ∧ (64 : Nat) < 2 ^ 32 ∧ (64 : Nat) < 2 ^ 32 ∧
     (List.replicate 12 (0 : Nat)).length = 12) ∧
    (eiml_generate_header ⟨1, 64, 64⟩ (List.replicate 12 0) =
      (EimlRet.EIML_OK,
        [0xFF, 0xA0, 0xFF, 1,
         64 % 256, 64 / 256 % 256, 64 / 256 ^ 2 % 256, 64 / 256 ^ 3 % 256,
         64 % 256, 64 / 256 % 256, 64 / 256 ^ 2 % 256, 64 / 256 ^ 3 % 256])) :=
  ⟨⟨by decide, by decide, by decide, by decide⟩,
   (C3_generate_header_correct 1 64 64 (List.replicate 12 0)
     (by decide) (by decide) (by decide) (by decide)).1⟩

/-- C4: If `out_width > in_width` or `out_height > in_height`,
`eiml_crop_center` returns `EIML_ERROR` and leaves the output buffer
unchanged. -/
theorem C4_crop_center_error (in_pixels : List Nat) (in_width in_height : Nat)
    (out_pixels : List Nat) (out_width out_height bytes_per_pixel : Nat)
    (h : out_width > in_width ∨ out_height > in_height) :
    eiml_crop_center in_pixels in_width in_height out_pixels out_width out_height
      bytes_per_pixel = (EimlRet.EIML_ERROR, out_pixels) := by
  unfold eiml_crop_center
  rw [if_pos h]

/-- Witness for C4: a 2×2 source with a 3×1 crop request. -/
theorem C4_crop_center_error_witness :
    ((3 : Nat) > 2 ∨ (1 : Nat) > 2) ∧
    eiml_crop_center [1, 2, 3, 4] 2 2 [7] 3 1 1 = (EimlRet.EIML_ERROR, [7]) :=
  ⟨by decide, C4_crop_center_error [1, 2, 3, 4] 2 2 [7] 3 1 1 (by decide)⟩


/-- C5: In the variant with explicit framing (nano33), every successful
frame transmission is the Base64 text of the 12-byte header, immediately
followed with no separator by the Base64 text of the frame body and one
line terminator (`Serial.print` of the header text, then `Serial.println`
of the body text); Base64 text contains no line-terminator byte.  In the
other variants the transmission is a single text line of Base64(JPEG
bytes) with no header. -/
theorem C5_wire_format :
    (∀ cam_img crop_buf rgb_buf : List Nat,
      (nano33_iteration cam_img crop_buf rgb_buf).1 =
        [SerialWrite.print (encode_base64 nano33_header_bytes),
         SerialWrite.println (encode_base64 (nano33_frame_body cam_img crop_buf rgb_buf))] ∧
      wireBytes (nano33_iteration cam_img crop_buf rgb_buf).1 =
        encode_base64 nano33_header_bytes ++
          (encode_base64 (nano33_frame_body cam_img crop_buf rgb_buf) ++ [13, 10])) ∧
    nano33_header_bytes.length = 12 ∧
    (∀ l : List Nat, ∀ c ∈ encode_base64 l, c ≠ 10 ∧ c ≠ 13) ∧
    (∀ fb jpg : List Nat, esp32_serial_iteration ⟨some fb, some jpg⟩ =
      [SerialWrite.println (encode_base64 jpg)]) ∧
    (∀ jpg : List Nat, esp32_cap02_iteration (some jpg) =
      [SerialWrite.println (encode_base64 jpg)]) := by
  refine ⟨?_, by decide, ?_, fun fb jpg => rfl, fun jpg => rfl⟩
  · intro cam crop rgb
    refine ⟨(nano33_iteration_success cam crop rgb).1, ?_⟩
    rw [(nano33_iteration_success cam crop rgb).1]
    simp [wireBytes, SerialWrite.wire]
  · intro l c hc
    have := encode_base64_gt_42 l c hc
    omega

/-- Witness for C5: a Base64 digit is not a line terminator, and the
nano33 wire bytes on the empty frame. -/
theorem C5_wire_format_witness :
    ((66 : Nat) ∈ encode_base64 [5, 6, 7] ∧ (66 : Nat) ≠ 10 ∧ (66 : Nat) ≠ 13) ∧
    wireBytes (nano33_iteration [] [] []).1 =
      encode_base64 nano33_header_bytes ++
        (encode_base64 (nano33_frame_body [] [] []) ++ [13, 10]) :=
  ⟨⟨by decide, C5_wire_format.2.2.1 [5, 6, 7] 66 (by decide)⟩,
   (C5_wire_format.1 [] [] []).2⟩

/-- C6: Every failing pipeline step aborts the remainder of its iteration:
a failed crop-dimension check, frame acquisition, or JPEG compression each
produce exactly one diagnostic line and nothing else; the pixel conversion
and header generation steps cannot fail; and runs are memoryless — each
iteration's writes are a function of that iteration's own input. -/
theorem C6_failure_aborts_iteration :
    (∀ cam_width cam_height crop_width crop_height : Nat,
      ∀ cam crop_buf rgb_buf : List Nat,
      (cam_width < crop_width ∨ cam_height < crop_height) →
      (nano33_loop_iter cam_width cam_height crop_width crop_height
          cam crop_buf rgb_buf).1 =
        [SerialWrite.println (strBytes "Image cropping error")]) ∧
    (∀ inp : Esp32Input, inp.fb = none →
      esp32_serial_iteration inp =
        [SerialWrite.println (strBytes "Camera capture failed")]) ∧
    (∀ inp : Esp32Input, ∀ fb, inp.fb = some fb → inp.jpg = none →
      esp32_serial_iteration inp =
        [SerialWrite.println
          (strBytes "ERROR: Could not convert image to JPEG format")]) ∧
    (∀ fb : Option (List Nat), fb = none →
      esp32_cap02_iteration fb =
        [SerialWrite.println (strBytes "Camera capture failed")]) ∧
    (∀ inps : List Esp32Input, esp32_serial_run inps = inps.map esp32_serial_iteration) ∧
    (∀ frames : List (List Nat), ∀ cb rb : List Nat,
      cb.length = 64 * 64 * 2 → rb.length = 64 * 64 * 3 →
      nano33_run frames cb rb = frames.map (fun f =>
        (nano33_iteration f (List.replicate (64 * 64 * 2) 0)
          (List.replicate (64 * 64 * 3) 0)).1)) ∧
    (∀ a b n, (eiml_rgb565_to_rgb888 a b n).1 = EimlRet.EIML_OK) ∧
    (∀ h o, (eiml_generate_header h o).1 = EimlRet.EIML_OK) := by
  refine ⟨?_, ?_, ?_, ?_, esp32_serial_run_eq_map, nano33_run_writes,
    fun a b n => rfl, fun h o => rfl⟩
  · intro cw ch ow oh cam crop_buf rgb_buf h
    have herr : (eiml_crop_center cam cw ch crop_buf ow oh 2).1 = EimlRet.EIML_ERROR := by
      unfold eiml_crop_center
      rw [if_pos h]
    simp [nano33_loop_iter, herr]
  · intro inp h
    cases inp with
    | mk fb jpg =>
      dsimp only at h
      subst h
      rfl
  · intro inp fb hfb hjpg
    cases inp with
    | mk fb0 jpg0 =>
      dsimp only at hfb hjpg
      subst hfb
      subst hjpg
      rfl
  · intro fb h
    subst h
    rfl

/-- Witness for C6 on concrete failing inputs. -/
theorem C6_failure_aborts_iteration_witness :
    (((2 : Nat) < 3 ∨ (2 : Nat) < 3) ∧
      (nano33_loop_iter 2 2 3 3 [] [] []).1 =
        [SerialWrite.println (strBytes "Image cropping error")]) ∧
    esp32_serial_iteration ⟨none, none⟩ =
      [SerialWrite.println (strBytes "Camera capture failed")] ∧
    esp32_serial_iteration ⟨some [1], none⟩ =
      [SerialWrite.println (strBytes "ERROR: Could not convert image to JPEG format")] ∧
    esp32_cap02_iteration none =
      [SerialWrite.println (strBytes "Camera capture failed")] :=
  ⟨⟨Or.inl (by decide),
    C6_failure_aborts_iteration.1 2 2 3 3 [] [] [] (Or.inl (by decide))⟩,
   C6_failure_aborts_iteration.2.1 ⟨none, none⟩ rfl,
   C6_failure_aborts_iteration.2.2.1 ⟨some [1], none⟩ [1] rfl rfl,
   C6_failure_aborts_iteration.2.2.2.1 none rfl⟩

/-- C7 counterexample: an iteration whose frame acquisition fails does
produce a transport write — the diagnostic line goes out over the same
serial port — so "no transport write at all" is false at this input. -/
theorem C7_no_write_counterexample :
    esp32_serial_iteration ⟨none, none⟩ ≠ [] ∧
    wireBytes (esp32_serial_iteration ⟨none, none⟩) ≠ [] ∧
    esp32_cap02_iteration none ≠ [] := by
  refine ⟨?_, ?_, ?_⟩ <;>
    simp [esp32_serial_iteration, esp32_cap02_iteration, wireBytes, SerialWrite.wire]

/-- C7 (amended): when acquisition fails on iteration `k`, the only
transport write of iteration `k` is the diagnostic line
`Camera capture failed` — in particular no frame-data (Base64) line — and
iteration `k+1` runs the pipeline normally on its own input. -/
theorem C7_acquisition_failure_diag_only (inps : List Esp32Input) (k : Nat)
    (hk : k < inps.length) (hfail : (inps.getD k ⟨none, none⟩).fb = none) :
    (esp32_serial_run inps).getD k [] =
      [SerialWrite.println (strBytes "Camera capture failed")] ∧
    (∀ l : List Nat,
      SerialWrite.println (encode_base64 l) ∉ (esp32_serial_run inps).getD k []) ∧
    (k + 1 < inps.length →
      (esp32_serial_run inps).getD (k + 1) [] =
        esp32_serial_iteration (inps.getD (k + 1) ⟨none, none⟩)) := by
  have h1 : (esp32_serial_run inps).getD k [] =
      [SerialWrite.println (strBytes "Camera capture failed")] := by
    rw [esp32_serial_run_getD inps k hk]
    simp only [esp32_serial_iteration, hfail]
  refine ⟨h1, ?_, fun h => esp32_serial_run_getD inps (k + 1) h⟩
  intro l hl
  rw [h1] at hl
  simp only [List.mem_singleton, SerialWrite.println.injEq] at hl
  have h32 : (32 : Nat) ∈ strBytes "Camera capture failed" := by decide
  rw [← hl] at h32
  exact absurd (encode_base64_gt_42 l 32 h32) (by omega)

/-- Witness for the amended C7 on a two-iteration run whose first
acquisition fails. -/
theorem C7_acquisition_failure_diag_only_witness :
    ((0 : Nat) < ([⟨none, none⟩, ⟨some [1], some [2]⟩] : List Esp32Input).length ∧
     (([⟨none, none⟩, ⟨some [1], some [2]⟩] : List Esp32Input).getD 0
        ⟨none, none⟩).fb = none) ∧
    ((esp32_serial_run [⟨none, none⟩, ⟨some [1], some [2]⟩]).getD 0 [] =
      [SerialWrite.println (strBytes "Camera capture failed")] ∧
     (∀ l : List Nat, SerialWrite.println (encode_base64 l) ∉
        (esp32_serial_run [⟨none, none⟩, ⟨some [1], some [2]⟩]).getD 0 []) ∧
     (0 + 1 < ([⟨none, none⟩, ⟨some [1], some [2]⟩] : List Esp32Input).length →
       (esp32_serial_run [⟨none, none⟩, ⟨some [1], some [2]⟩]).getD (0 + 1) [] =
         esp32_serial_iteration
           (([⟨none, none⟩, ⟨some [1], some [2]⟩] : List Esp32Input).getD (0 + 1)
             ⟨none, none⟩))) :=
  ⟨⟨by decide, rfl⟩,
   C7_acquisition_failure_diag_only [⟨none, none⟩, ⟨some [1], some [2]⟩] 0
     (by decide) rfl⟩

/-- C8: the allocation formula `(n + 2) / 3 * 4` equals `⌈n / 3⌉ * 4`, the
exact Base64 output length for `n` input bytes, and it is the formula at
every text-encoding allocation site of the three sketches. -/
theorem C8_alloc_formula_exact :
    (∀ n, nano33_enc_len n = n ⌈/⌉ 3 * 4) ∧
    (∀ n, esp32_serial_enc_len n = n ⌈/⌉ 3 * 4) ∧
    (∀ n, esp32_cap02_enc_len n = n ⌈/⌉ 3 * 4) ∧
    (∀ l : List Nat, (encode_base64 l).length = l.length ⌈/⌉ 3 * 4) := by
  have key : ∀ n : Nat, (n + 2) / 3 = n ⌈/⌉ 3 := by
    intro n
    rw [Nat.ceilDiv_eq_add_pred_div]
    omega
  refine ⟨fun n => ?_, fun n => ?_, fun n => ?_, fun l => ?_⟩
  · simp only [nano33_enc_len]
    rw [key]
  · simp only [esp32_serial_enc_len]
    rw [key]
  · simp only [esp32_cap02_enc_len]
    rw [key]
  · rw [encode_base64_length, key]

/-- C9 counterexample: a buffer of exactly `(n + 2) / 3 * 4` bytes is NOT
large enough for the Base64 output plus the trailing null terminator: at
`n = 12` (the `enc_header` case), the encoder writes 17 bytes into the
16-byte buffer. -/
theorem C9_terminator_counterexample :
    ¬ (encode_base64_bytes_written nano33_header_bytes ≤ enc_header_size) := by decide

/-- C9 (amended): `(n + 2) / 3 * 4` holds exactly the Base64 digit bytes
with no room for the null terminator; the three `malloc` sites allocate
one extra byte, which exactly fits the terminator; the 16-byte
`enc_header` array fits only the 16 digit bytes of the 12-byte header,
and the terminating null is written one byte past its end. -/
theorem C9_alloc_has_no_terminator_room :
    (∀ l : List Nat, nano33_enc_len l.length = (encode_base64 l).length) ∧
    (∀ l : List Nat, malloc_enc_size l.length = encode_base64_bytes_written l) ∧
    enc_header_size = (encode_base64 nano33_header_bytes).length ∧
    enc_header_size + 1 = encode_base64_bytes_written nano33_header_bytes := by
  refine ⟨fun l => ?_, fun l => ?_, by decide, by decide⟩
  · rw [nano33_enc_len, encode_base64_length]
  · rw [malloc_enc_size, encode_base64_bytes_written, encode_base64_length]

/-- C10: under `out_width ≤ in_width` and `out_height ≤ in_height`, every
input index the crop reads is below `in_width * in_height *
bytes_per_pixel`, every output index it writes is below `out_width *
out_height * bytes_per_pixel`, and on a correctly sized input buffer the
optional lookup at the read index is never `none`. -/
theorem C10_crop_accesses_in_bounds (in_pixels : List Nat)
    (in_width in_height out_width out_height bytes_per_pixel y x b : Nat)
    (hw : out_width ≤ in_width) (hh : out_height ≤ in_height)
    (hy : y < out_height) (hx : x < out_width) (hb : b < bytes_per_pixel)
    (hin : in_pixels.length = in_width * in_height * bytes_per_pixel) :
    cropInIdx in_width in_height out_width out_height bytes_per_pixel y x b <
      in_width * in_height * bytes_per_pixel ∧
    cropOutIdx out_width bytes_per_pixel y x b <
      out_width * out_height * bytes_per_pixel ∧
    (in_pixels[cropInIdx in_width in_height out_width out_height bytes_per_pixel
      y x b]?).isSome := by
  have hbd := crop_indices_bounds in_width in_height out_width out_height
    bytes_per_pixel y x b hw hh hy hx hb
  refine ⟨hbd.1, hbd.2, ?_⟩
  have hlt : cropInIdx in_width in_height out_width out_height bytes_per_pixel y x b <
      in_pixels.length := by
    rw [hin]
    exact hbd.1
  simp [List.getElem?_eq_getElem hlt]

/-- Witness for C10 at the 3×3 → 2×2 crop, pixel (0, 0). -/
theorem C10_crop_accesses_in_bounds_witness :
    ((2 : Nat) ≤ 3 ∧ (2 : Nat) ≤ 3 ∧ (0 : Nat) < 2 ∧ (0 : Nat) < 2 ∧ (0 : Nat) < 1 ∧
     ([0, 1, 2, 3, 4, 5, 6, 7, 8] : List Nat).length = 3 * 3 * 1) ∧
    (cropInIdx 3 3 2 2 1 0 0 0 < 3 * 3 * 1 ∧
     cropOutIdx 2 1 0 0 0 < 2 * 2 * 1 ∧
     (([0, 1, 2, 3, 4, 5, 6, 7, 8] : List Nat)[cropInIdx 3 3 2 2 1 0 0 0]?).isSome) :=
  ⟨⟨by decide, by decide, by decide, by decide, by decide, by decide⟩,
   C10_crop_accesses_in_bounds [0, 1, 2, 3, 4, 5, 6, 7, 8] 3 3 2 2 1 0 0 0
     (by decide) (by decide) (by decide) (by decide) (by decide) (by decide)⟩
